import Mathlib

/-!
# uthread: a shallow embedding of `uthread.c`

The file-scope globals of `uthread.c` become the fields of `State`; each C
function becomes a function on `State`.  A call either returns (`Except.ok`)
or stops the process (`Except.error`): a failed `assert`, or undefined
behaviour of the C program (access through `NULL`, access outside an
allocation, signed overflow).

Calls are taken one at a time, so `pthread_mutex_lock(&_mutex)` /
`pthread_mutex_unlock(&_mutex)` around each body and the `puts`/`printf`
output are left out.  What the thread started by `clone` does concurrently
(`kthread_runner`) is outside the model; the call to `clone` itself is
recorded in `State.clone_log`.

A load of `_kthreads[idx].active` outside the allocation has no defined result.
`uthread_create` takes it to stop the process.  `uthread_create_reading` takes
every outcome of it, a flag value found there or a stop, and is the same function
as `uthread_create` when every such load stops (`uthread_create_reading_none`);
the invariants of the counters and the queue are proved over it.
-/

set_option maxRecDepth 100000

namespace Uthread

/-! ## Constants and data -/

/-- The macro `MAX_NUM_UTHREADS` (line 22). -/
def MAX_NUM_UTHREADS : Int := 1000

/-- Largest value of the C type `int`. -/
def INT_MAX : Int := 2147483647

/-- Two's complement reduction of an integer to the 32-bit range of `int`. -/
def int_wrap (x : Int) : Int := (x + 2 ^ 31) % 2 ^ 32 - 2 ^ 31

/-- The C `struct timeval`. -/
structure timeval where
  tv_sec : Int
  tv_usec : Int
deriving DecidableEq, Repr

/-- The record `uthread_t` (lines 32-36).  `ucontext` keeps what the model needs
of the saved context: the entry function handed to `makecontext`. -/
structure uthread_t where
  ucontext : Option Nat
  running_time : timeval
  active : Bool
deriving DecidableEq, Repr

/-- The record `kthread_t` (lines 39-44).  The `pthread` field is never written
or read by the code and is left out. -/
structure kthread_t where
  initial_utime : timeval
  initial_stime : timeval
  active : Bool
deriving DecidableEq, Repr

/-- Ways in which a call stops the process instead of returning. -/
inductive Fault where
  | assertion (line : Nat)
  | null_deref
  | out_of_bounds
  | signed_overflow
deriving DecidableEq, Repr

/-! ## The collaborators from `lib/` -/

/-- Modelled from the spec: the heap of `lib/heap.h`, whose source is missing.
The spec gives the interface "construct with comparator, insert, size,
extract-highest-priority"; the model keeps the items that were inserted, most
recent first.  Items are references to user-thread slots (slot indices). -/
structure HeapObj where
  items : List Nat
deriving DecidableEq, Repr

/-- Modelled from the spec: `HEAPinit` of `lib/heap.h` ("constructs an empty
WaitingQueue with the running-time comparator").  It returns a heap object, never
`NULL`. -/
def HEAPinit (_cmp : uthread_t → uthread_t → Int) : HeapObj := ⟨[]⟩

/-- Modelled from the spec: `HEAPinsert` of `lib/heap.h`; a `NULL` heap is a fault. -/
def HEAPinsert (h : Option HeapObj) (item : Nat) : Except Fault HeapObj :=
  match h with
  | none => .error .null_deref
  | some q => .ok ⟨item :: q.items⟩

/-- Modelled from the spec: `HEAPsize` of `lib/heap.h`; a `NULL` heap is a fault. -/
def HEAPsize (h : Option HeapObj) : Except Fault Int :=
  match h with
  | none => .error .null_deref
  | some q => .ok (q.items.length : Int)

/-- The order of time values: by seconds, then by microseconds. -/
def timeval_lt (t1 t2 : timeval) : Prop :=
  t1.tv_sec < t2.tv_sec ∨ (t1.tv_sec = t2.tv_sec ∧ t1.tv_usec < t2.tv_usec)

instance (t1 t2 : timeval) : Decidable (timeval_lt t1 t2) := by
  unfold timeval_lt; exact inferInstance

/-- Modelled from the spec: `timeval_cmp` of `lib/tvhelp.h`, whose source is
missing ("Time-value comparator: compare(t1, t2) -> less, equal, greater"),
with the results -1, 0 and 1. -/
def timeval_cmp (t1 t2 : timeval) : Int :=
  if timeval_lt t1 t2 then -1 else if timeval_lt t2 t1 then 1 else 0

/-- What the comparator claim assumes of `timeval_cmp`: a three-way comparison
of time values with results in {-1, 0, 1}. -/
def three_way (cmp : timeval → timeval → Int) : Prop :=
  ∀ t1 t2, (cmp t1 t2 = -1 ∨ cmp t1 t2 = 0 ∨ cmp t1 t2 = 1) ∧
    (cmp t1 t2 < 0 ↔ timeval_lt t1 t2) ∧
    (cmp t1 t2 = 0 ↔ t1 = t2) ∧
    (0 < cmp t1 t2 ↔ timeval_lt t2 t1)

/-! ## The globals -/

/-- The file-scope variables of `uthread.c` (lines 63-76).  `_waiting_uthreads`
is `none` for `NULL`.  A table is the list of the slots of its allocation (`[]`
for `NULL` and for an allocation of zero bytes), and pointers into a table are
slot indices.  `clone_log` is the record of the `clone` calls made so far, as
(vehicle slot, user-thread slot) pairs, oldest first. -/
structure State where
  _waiting_uthreads : Option HeapObj
  _num_kthreads : Int
  _max_num_kthreads : Int
  _num_uthreads : Int
  _uthreads : List uthread_t
  _kthreads : List kthread_t
  clone_log : List (Nat × Nat)
deriving DecidableEq, Repr

/-- The globals at program start: zero-initialised, `_waiting_uthreads = NULL`. -/
def boot : State :=
  { _waiting_uthreads := none, _num_kthreads := 0, _max_num_kthreads := 0,
    _num_uthreads := 0, _uthreads := [], _kthreads := [], clone_log := [] }

/-- What a call of `uthread_create` receives from outside the globals: the entry
function, the indeterminate content of the local `rv` (line 124, never
assigned on the queueing path) and the value `clone` returns if it is called. -/
structure Call where
  run_func : Nat
  rv_indeterminate : Int
  clone_rv : Int
deriving DecidableEq, Repr

/-! ## Helper functions of the source -/

/-- The function `uthread_priority` (lines 329-336): `return -cmp;` on `int`. -/
def uthread_priority (cmp : timeval → timeval → Int) (rec1 rec2 : uthread_t) : Int :=
  int_wrap (-(cmp rec1.running_time rec2.running_time))

/-- A slot as `uthread_system_init` leaves it: `active = false`; the other bytes of
the fresh allocation are not written (each is set by `uthread_init` before it is
read) and get a fixed value here. -/
def fresh_uthread : uthread_t := { ucontext := none, running_time := ⟨0, 0⟩, active := false }

/-- A vehicle slot as `uthread_system_init` leaves it: `active = false`. -/
def fresh_kthread : kthread_t :=
  { initial_utime := ⟨0, 0⟩, initial_stime := ⟨0, 0⟩, active := false }

/-- The function `uthread_init` (lines 209-224): binds the context to `run_func`,
zeroes the running time, sets `active`.  The pointer is dereferenced. -/
def uthread_init (s : State) (uthread : Option Nat) (run_func : Nat) : Except Fault State :=
  match uthread with
  | none => .error .null_deref
  | some i =>
    if i < s._uthreads.length then
      .ok { s with _uthreads := s._uthreads.set i ⟨some run_func, ⟨0, 0⟩, true⟩ }
    else .error .out_of_bounds

/-- The loop shared by `find_inactive_kthread` (lines 296-301) and
`find_inactive_uthread` (lines 313-318): `left` iterations to go from index `idx`;
`active_at i` reads `table[i].active` (`none` outside the allocation).  The result
is the first index whose flag is `false`, `none` (for `NULL`) if the loop ends. -/
def scan_inactive (active_at : Nat → Option Bool) : Nat → Nat → Except Fault (Option Nat)
  | 0, _ => .ok none
  | left + 1, idx =>
    match active_at idx with
    | none => .error .out_of_bounds
    | some a =>
      if a = false then .ok (some idx)
      else scan_inactive active_at left (idx + 1)

/-- The function `find_inactive_kthread` (lines 293-303): `idx` runs over
`0 .. _max_num_kthreads - 1` and reads `_kthreads[idx].active`. -/
def find_inactive_kthread (s : State) : Except Fault (Option Nat) :=
  scan_inactive (fun i => (s._kthreads[i]?).map kthread_t.active) s._max_num_kthreads.toNat 0

/-- The function `find_inactive_uthread` (lines 310-320).  As in the source, `idx`
runs over `0 .. _max_num_kthreads - 1`; it reads `_uthreads[idx].active`. -/
def find_inactive_uthread (s : State) : Except Fault (Option Nat) :=
  scan_inactive (fun i => (s._uthreads[i]?).map uthread_t.active) s._max_num_kthreads.toNat 0

/-- The function `kthread_create` (lines 258-277): asserts that the vehicle slot
is inactive, then calls `clone` and returns its result.  No global is written. -/
def kthread_create (s : State) (kt ut : Nat) (clone_rv : Int) : Except Fault (State × Int) :=
  match s._kthreads[kt]? with
  | none => .error .out_of_bounds
  | some k =>
    if k.active = false then
      .ok ({ s with clone_log := s.clone_log ++ [(kt, ut)] }, clone_rv)
    else .error (.assertion 261)

/-! ## Public functions of the source -/

/-- The function `uthread_system_init` (lines 86-118).  The vehicle table is
allocated and cleared with the global `_max_num_kthreads` as it is on entry
(lines 102-103); the global receives the argument on line 116. -/
def uthread_system_init (s : State) (max_num_kthreads : Int) : Except Fault State :=
  if ¬ (1 ≤ max_num_kthreads ∧ max_num_kthreads ≤ MAX_NUM_UTHREADS) then
    .error (.assertion 88)
  else if s._waiting_uthreads ≠ none then .error (.assertion 89)
  else
    .ok { _waiting_uthreads := some (HEAPinit (uthread_priority timeval_cmp)),
          _kthreads := List.replicate s._max_num_kthreads.toNat fresh_kthread,
          _uthreads := List.replicate MAX_NUM_UTHREADS.toNat fresh_uthread,
          _num_uthreads := 0,
          _num_kthreads := 0,
          _max_num_kthreads := max_num_kthreads,
          clone_log := s.clone_log }

/-- The function `system_init` (lines 81-83). -/
def system_init (s : State) (max_num_kthreads : Int) : Except Fault State :=
  uthread_system_init s max_num_kthreads

/-- The queueing branch of `uthread_create` (lines 139-143); `rv` is returned as
it is, never assigned. -/
def uthread_create_enqueue (s : State) (uthread : Nat) (c : Call) : Except Fault (State × Int) :=
  match HEAPinsert s._waiting_uthreads uthread with
  | .error f => .error f
  | .ok h => .ok ({ s with _waiting_uthreads := some h }, c.rv_indeterminate)

/-- The spawning branch of `uthread_create` (lines 145-159).  The increment of
`_num_kthreads` cannot overflow: the branch is entered below `_max_num_kthreads`. -/
def uthread_create_spawn (s : State) (uthread : Nat) (c : Call) : Except Fault (State × Int) :=
  match HEAPsize s._waiting_uthreads with
  | .error f => .error f
  | .ok sz =>
    if sz ≠ 0 then .error (.assertion 149)
    else
      match find_inactive_kthread s with
      | .error f => .error f
      | .ok none => .error (.assertion 154)
      | .ok (some kthread) =>
        match kthread_create s kthread uthread c.clone_rv with
        | .error f => .error f
        | .ok (s1, rv) => .ok ({ s1 with _num_kthreads := s1._num_kthreads + 1 }, rv)

/-- The function `uthread_create` (lines 122-163). -/
def uthread_create (s : State) (c : Call) : Except Fault (State × Int) :=
  if s._num_uthreads = INT_MAX then .error .signed_overflow
  else
    let s1 : State := { s with _num_uthreads := s._num_uthreads + 1 }
    if ¬ (s1._num_uthreads < MAX_NUM_UTHREADS) then .error (.assertion 132)
    else if ¬ (s1._num_kthreads ≤ s1._max_num_kthreads) then .error (.assertion 133)
    else
      match find_inactive_uthread s1 with
      | .error f => .error f
      | .ok uthread =>
        match uthread_init s1 uthread c.run_func with
        | .error f => .error f
        | .ok s2 =>
          match uthread with
          | none => .error .null_deref
          | some u =>
            if s2._num_kthreads = s2._max_num_kthreads then uthread_create_enqueue s2 u c
            else uthread_create_spawn s2 u c

/-- The function `uthread_yield` (lines 168-175): `assert(false)`. -/
def uthread_yield (_s : State) : Except Fault State :=
  .error (.assertion 172)

/-- The function `uthread_exit` (lines 178-203): `assert(false)`. -/
def uthread_exit (_s : State) : Except Fault State :=
  .error (.assertion 197)

/-! ## Sequences of calls -/

/-- A sequence of `uthread_create` calls, one after the other; it stops at the
first call that does not return. -/
def run_creates : State → List Call → Except Fault State
  | s, [] => .ok s
  | s, c :: cs =>
    match uthread_create s c with
    | .error f => .error f
    | .ok (s1, _) => run_creates s1 cs

/-- The globals at program start, except that `_max_num_kthreads` already holds
`m`: from here `uthread_system_init` allocates a vehicle table of `m` slots. -/
def boot_with (m : Int) : State := { boot with _max_num_kthreads := m }

/-- A state with one vehicle, hosting user thread 0; nothing waits. -/
def hosted_one : State :=
  { _waiting_uthreads := some ⟨[]⟩, _num_kthreads := 1, _max_num_kthreads := 1,
    _num_uthreads := 1,
    _uthreads := (List.replicate 1000 fresh_uthread).set 0 ⟨some 7, ⟨0, 0⟩, true⟩,
    _kthreads := [fresh_kthread], clone_log := [(0, 0)] }

/-- A state with room for one vehicle and none in use; no user thread is active. -/
def idle_one : State :=
  { _waiting_uthreads := some ⟨[]⟩, _num_kthreads := 0, _max_num_kthreads := 1,
    _num_uthreads := 0, _uthreads := List.replicate 1000 fresh_uthread,
    _kthreads := [fresh_kthread], clone_log := [] }

/-- A state in which all 1000 user-thread slots are active: one thread is hosted on
the only vehicle, the other 999 wait. -/
def full_state : State :=
  { _waiting_uthreads := some ⟨List.range' 1 999⟩, _num_kthreads := 1,
    _max_num_kthreads := 1, _num_uthreads := 1000,
    _uthreads := List.replicate 1000 ⟨some 7, ⟨0, 0⟩, true⟩,
    _kthreads := [fresh_kthread], clone_log := [(0, 0)] }

/-- A state with the only vehicle in use and user-thread slot 0 free: slot 1 is
hosted, slot 2 waits. -/
def waiting_one : State :=
  { _waiting_uthreads := some ⟨[2]⟩, _num_kthreads := 1, _max_num_kthreads := 1,
    _num_uthreads := 2,
    _uthreads := ((List.replicate 1000 fresh_uthread).set 1 ⟨some 7, ⟨0, 0⟩, true⟩).set 2
      ⟨some 8, ⟨0, 0⟩, true⟩,
    _kthreads := [fresh_kthread], clone_log := [(0, 1)] }

/-! ## Loads outside the vehicle table -/

/-- What a load of `_kthreads[i].active` yields during a call.  Inside the
allocation it is the flag of slot `i`.  Outside (line 297 after the table was
allocated too small, line 261 on the slot found there) the C program has no
defined result: `stray i` is `some b` when the load goes through and finds `b`,
`none` when it stops the process. -/
def kthread_active_read (stray : Nat → Option Bool) (ks : List kthread_t) (i : Nat) :
    Option Bool :=
  match ks[i]? with
  | some k => some k.active
  | none => stray i

/-- The function `find_inactive_kthread` (lines 293-303) with the loads outside the
table resolved by `stray`. -/
def find_inactive_kthread_reading (stray : Nat → Option Bool) (s : State) :
    Except Fault (Option Nat) :=
  scan_inactive (kthread_active_read stray s._kthreads) s._max_num_kthreads.toNat 0

/-- The function `kthread_create` (lines 258-277) with the load of `kt->active`
resolved by `stray`. -/
def kthread_create_reading (stray : Nat → Option Bool) (s : State) (kt ut : Nat)
    (clone_rv : Int) : Except Fault (State × Int) :=
  match kthread_active_read stray s._kthreads kt with
  | none => .error .out_of_bounds
  | some a =>
    if a = false then
      .ok ({ s with clone_log := s.clone_log ++ [(kt, ut)] }, clone_rv)
    else .error (.assertion 261)

/-- The spawning branch of `uthread_create` (lines 145-159) over
`find_inactive_kthread_reading` and `kthread_create_reading`. -/
def uthread_create_spawn_reading (stray : Nat → Option Bool) (s : State) (uthread : Nat)
    (c : Call) : Except Fault (State × Int) :=
  match HEAPsize s._waiting_uthreads with
  | .error f => .error f
  | .ok sz =>
    if sz ≠ 0 then .error (.assertion 149)
    else
      match find_inactive_kthread_reading stray s with
      | .error f => .error f
      | .ok none => .error (.assertion 154)
      | .ok (some kthread) =>
        match kthread_create_reading stray s kthread uthread c.clone_rv with
        | .error f => .error f
        | .ok (s1, rv) => .ok ({ s1 with _num_kthreads := s1._num_kthreads + 1 }, rv)

/-- The function `uthread_create` (lines 122-163) for every outcome of the loads
outside the vehicle table: the same statements as `uthread_create`, which is the
case `stray = fun _ => none`. -/
def uthread_create_reading (stray : Nat → Option Bool) (s : State) (c : Call) :
    Except Fault (State × Int) :=
  if s._num_uthreads = INT_MAX then .error .signed_overflow
  else
    let s1 : State := { s with _num_uthreads := s._num_uthreads + 1 }
    if ¬ (s1._num_uthreads < MAX_NUM_UTHREADS) then .error (.assertion 132)
    else if ¬ (s1._num_kthreads ≤ s1._max_num_kthreads) then .error (.assertion 133)
    else
      match find_inactive_uthread s1 with
      | .error f => .error f
      | .ok uthread =>
        match uthread_init s1 uthread c.run_func with
        | .error f => .error f
        | .ok s2 =>
          match uthread with
          | none => .error .null_deref
          | some u =>
            if s2._num_kthreads = s2._max_num_kthreads then uthread_create_enqueue s2 u c
            else uthread_create_spawn_reading stray s2 u c

/-- A sequence of `uthread_create` calls, each with the outcome of its loads
outside the vehicle table; it stops at the first call that does not return. -/
def run_creates_reading : State → List (Call × (Nat → Option Bool)) → Except Fault State
  | s, [] => .ok s
  | s, (c, stray) :: cs =>
    match uthread_create_reading stray s c with
    | .error f => .error f
    | .ok (s1, _) => run_creates_reading s1 cs

/-! ## Predicates on states -/

/-- The user-thread table after `uthread_init` on slot `u`. -/
def activated (s : State) (u : Nat) (c : Call) : List uthread_t :=
  s._uthreads.set u ⟨some c.run_func, ⟨0, 0⟩, true⟩

/-- Admission: no more vehicles in use than allowed, and nothing waits unless
all vehicles are in use. -/
def admission (s : State) : Prop :=
  s._num_kthreads ≤ s._max_num_kthreads ∧
    ∃ sz, HEAPsize s._waiting_uthreads = .ok sz ∧
      (0 < sz → s._num_kthreads = s._max_num_kthreads)

/-- Accounting: hosted threads plus waiting threads are all the active threads. -/
def accounting (s : State) : Prop :=
  ∃ sz, HEAPsize s._waiting_uthreads = .ok sz ∧ s._num_kthreads + sz = s._num_uthreads

/-- The shape of every state that `uthread_create` calls reach after
`uthread_system_init(n)`: `k` calls returned, each spawned; user-thread slots
`0 .. k-1` are active and the others are not; nothing waits. -/
def spawned_only (s : State) (n : Int) (k : Nat) : Prop :=
  s._max_num_kthreads = n ∧ s._num_kthreads = k ∧ s._num_uthreads = k ∧
    (k : Int) ≤ n ∧ n ≤ MAX_NUM_UTHREADS ∧
    s._waiting_uthreads = some ⟨[]⟩ ∧
    (∀ j, j < k → (s._uthreads[j]?).map uthread_t.active = some true) ∧
    (∀ j, k ≤ j → j < 1000 → (s._uthreads[j]?).map uthread_t.active = some false)

/-! ## Initialisation -/

theorem system_init_ok (s : State) (n : Int) (h1 : 1 ≤ n) (h2 : n ≤ MAX_NUM_UTHREADS)
    (h3 : s._waiting_uthreads = none) :
    uthread_system_init s n = .ok
      { _waiting_uthreads := some ⟨[]⟩,
        _kthreads := List.replicate s._max_num_kthreads.toNat fresh_kthread,
        _uthreads := List.replicate MAX_NUM_UTHREADS.toNat fresh_uthread,
        _num_uthreads := 0, _num_kthreads := 0, _max_num_kthreads := n,
        clone_log := s.clone_log } := by
  unfold uthread_system_init
  rw [if_neg (not_not.mpr ⟨h1, h2⟩), if_neg (not_not.mpr h3)]
  rfl

theorem system_init_ok_inv (s s0 : State) (n : Int) (h : uthread_system_init s n = .ok s0) :
    1 ≤ n ∧ n ≤ MAX_NUM_UTHREADS ∧ s._waiting_uthreads = none ∧
    s0 = { _waiting_uthreads := some ⟨[]⟩,
           _kthreads := List.replicate s._max_num_kthreads.toNat fresh_kthread,
           _uthreads := List.replicate MAX_NUM_UTHREADS.toNat fresh_uthread,
           _num_uthreads := 0, _num_kthreads := 0, _max_num_kthreads := n,
           clone_log := s.clone_log } := by
  by_cases hn : 1 ≤ n ∧ n ≤ MAX_NUM_UTHREADS
  · by_cases hw : s._waiting_uthreads = none
    · rw [system_init_ok s n hn.1 hn.2 hw] at h
      injection h with h
      exact ⟨hn.1, hn.2, hw, h.symm⟩
    · unfold uthread_system_init at h
      rw [if_neg (not_not.mpr hn), if_pos hw] at h
      cases h
  · unfold uthread_system_init at h
    rw [if_pos hn] at h
    cases h

/-- C6: `uthread_system_init(n)` fails exactly when `n < 1`, or
`n > MAX_NUM_UTHREADS`, or `_waiting_uthreads` is not `NULL`; a call that follows a
successful call fails for every argument; the arguments 0 and 1001 fail. -/
theorem system_init_fails_iff (s : State) (n : Int) :
    ((∃ f, uthread_system_init s n = .error f) ↔
      (n < 1 ∨ MAX_NUM_UTHREADS < n ∨ s._waiting_uthreads ≠ none)) ∧
    (∀ s1 m, uthread_system_init s n = .ok s1 → ∃ f, uthread_system_init s1 m = .error f) ∧
    (∃ f, uthread_system_init s 0 = .error f) ∧
    (∃ f, uthread_system_init s 1001 = .error f) := by
  have key : ∀ (t : State) (k : Int), (∃ f, uthread_system_init t k = .error f) ↔
      (k < 1 ∨ MAX_NUM_UTHREADS < k ∨ t._waiting_uthreads ≠ none) := by
    intro t k
    constructor
    · rintro ⟨f, hf⟩
      by_contra hc
      push_neg at hc
      rw [system_init_ok t k hc.1 hc.2.1 hc.2.2] at hf
      cases hf
    · intro h
      unfold uthread_system_init
      by_cases hk : 1 ≤ k ∧ k ≤ MAX_NUM_UTHREADS
      · have hw : t._waiting_uthreads ≠ none := by
          rcases h with h | h | h
          · omega
          · omega
          · exact h
        exact ⟨.assertion 89, by simp [hk, hw]⟩
      · exact ⟨.assertion 88, by simp [hk]⟩
  refine ⟨key s n, ?_, (key s 0).2 (Or.inl (by decide)), (key s 1001).2 (Or.inr (Or.inl (by decide)))⟩
  intro s1 m h
  obtain ⟨_, _, _, hs1⟩ := system_init_ok_inv s s1 n h
  exact (key s1 m).2 (Or.inr (Or.inr (by rw [hs1]; simp)))

theorem system_init_fails_iff_witness :
    ∃ s1, uthread_system_init boot 2 = .ok s1 ∧ ∃ f, uthread_system_init s1 5 = .error f :=
  ⟨_, rfl, (system_init_fails_iff boot 2).2.1 _ 5 rfl⟩

/-! ## Yield -/

/-- C8: `uthread_yield` is not implemented.  In every state the call stops at
`assert(false)` (line 172) and does not return to the calling thread. -/
theorem uthread_yield_stops (s : State) : uthread_yield s = .error (.assertion 172) := rfl

/-- C8, as stated, fails: with one hosted thread and an empty waiting queue,
`uthread_yield` does not return. -/
theorem uthread_yield_no_return :
    HEAPsize hosted_one._waiting_uthreads = .ok 0 ∧
      ¬ ∃ s1, uthread_yield hosted_one = .ok s1 := by
  refine ⟨rfl, ?_⟩
  rintro ⟨s1, h⟩
  cases h

/-! ## The priority comparator -/

theorem int_wrap_small (v : Int) (h : v = -1 ∨ v = 0 ∨ v = 1) : int_wrap (-v) = -v := by
  rcases h with h | h | h <;> subst h <;> decide

theorem uthread_priority_eq (cmp : timeval → timeval → Int) (h : three_way cmp)
    (a b : uthread_t) :
    uthread_priority cmp a b = -(cmp a.running_time b.running_time) :=
  int_wrap_small _ (h a.running_time b.running_time).1

theorem three_way_flip (cmp : timeval → timeval → Int) (h : three_way cmp) (t1 t2 : timeval) :
    cmp t1 t2 = -(cmp t2 t1) := by
  obtain ⟨hv, hlt, heq, hgt⟩ := h t1 t2
  obtain ⟨hv2, hlt2, heq2, hgt2⟩ := h t2 t1
  rcases hv with hv | hv | hv
  · have h1 : timeval_lt t1 t2 := hlt.mp (by omega)
    have h2 : 0 < cmp t2 t1 := hgt2.mpr h1
    omega
  · have h1 : t1 = t2 := heq.mp hv
    have h2 : cmp t2 t1 = 0 := heq2.mpr h1.symm
    omega
  · have h1 : timeval_lt t2 t1 := hgt.mp (by omega)
    have h2 : cmp t2 t1 < 0 := hlt2.mpr h1
    omega

theorem timeval_lt_chain (t1 t2 t3 : timeval) (h12 : ¬ timeval_lt t2 t1)
    (h23 : ¬ timeval_lt t3 t2) : ¬ timeval_lt t3 t1 := by
  unfold timeval_lt at *
  omega

theorem timeval_cmp_three_way : three_way timeval_cmp := by
  intro t1 t2
  have hext : t1 = t2 ↔ (t1.tv_sec = t2.tv_sec ∧ t1.tv_usec = t2.tv_usec) := by
    constructor
    · intro h; subst h; exact ⟨rfl, rfl⟩
    · intro h
      cases t1; cases t2
      simp only [timeval.mk.injEq]
      exact h
  unfold timeval_cmp
  by_cases h1 : timeval_lt t1 t2
  · have h2 : ¬ timeval_lt t2 t1 := by unfold timeval_lt at *; omega
    have h3 : ¬ t1 = t2 := by rw [hext]; unfold timeval_lt at h1; omega
    simp [h1, h2, h3]
  · by_cases h2 : timeval_lt t2 t1
    · have h3 : ¬ t1 = t2 := by rw [hext]; unfold timeval_lt at h2; omega
      simp [h1, h2, h3]
    · have h3 : t1 = t2 := by rw [hext]; unfold timeval_lt at h1 h2; omega
      simp only [if_neg h1, if_neg h2]
      subst h3
      simp [h1]

/-- C7: when `timeval_cmp` is a three-way comparison of time values with results
in {-1, 0, 1}, then for all user-thread records `a`, `b`, `c`:
`uthread_priority(a, b) > 0` iff `a.running_time < b.running_time`;
`uthread_priority(a, b) == 0` iff the running times are equal;
`uthread_priority(a, b) == -uthread_priority(b, a)`; and "priority at least that
of" is total and transitive (a total preorder on running time). -/
theorem uthread_priority_order (cmp : timeval → timeval → Int) (h : three_way cmp)
    (a b c : uthread_t) :
    (0 < uthread_priority cmp a b ↔ timeval_lt a.running_time b.running_time) ∧
    (uthread_priority cmp a b = 0 ↔ a.running_time = b.running_time) ∧
    uthread_priority cmp a b = -(uthread_priority cmp b a) ∧
    (0 ≤ uthread_priority cmp a b ∨ 0 ≤ uthread_priority cmp b a) ∧
    (0 ≤ uthread_priority cmp a b → 0 ≤ uthread_priority cmp b c →
      0 ≤ uthread_priority cmp a c) := by
  rw [uthread_priority_eq cmp h a b, uthread_priority_eq cmp h b a,
    uthread_priority_eq cmp h b c, uthread_priority_eq cmp h a c]
  obtain ⟨_, hlt, heq, hgt⟩ := h a.running_time b.running_time
  obtain ⟨_, _, _, hgt_bc⟩ := h b.running_time c.running_time
  obtain ⟨_, _, _, hgt_ac⟩ := h a.running_time c.running_time
  have hflip := three_way_flip cmp h a.running_time b.running_time
  refine ⟨?_, ?_, ?_, ?_, ?_⟩
  · rw [← hlt]; omega
  · rw [← heq]; omega
  · omega
  · omega
  · intro hab hbc
    have h1 : ¬ timeval_lt b.running_time a.running_time := fun hx => by
      have := hgt.mpr hx; omega
    have h2 : ¬ timeval_lt c.running_time b.running_time := fun hx => by
      have := hgt_bc.mpr hx; omega
    have h3 := timeval_lt_chain _ _ _ h1 h2
    by_contra hneg
    exact h3 (hgt_ac.mp (by omega))

theorem uthread_priority_order_witness :
    three_way timeval_cmp ∧
    (0 < uthread_priority timeval_cmp ⟨none, ⟨1, 5⟩, true⟩ ⟨none, ⟨1, 6⟩, true⟩ ↔
      timeval_lt ⟨1, 5⟩ ⟨1, 6⟩) ∧
    (uthread_priority timeval_cmp ⟨none, ⟨1, 5⟩, true⟩ ⟨none, ⟨1, 6⟩, true⟩ = 0 ↔
      (⟨1, 5⟩ : timeval) = ⟨1, 6⟩) ∧
    uthread_priority timeval_cmp ⟨none, ⟨1, 5⟩, true⟩ ⟨none, ⟨1, 6⟩, true⟩ =
      -(uthread_priority timeval_cmp ⟨none, ⟨1, 6⟩, true⟩ ⟨none, ⟨1, 5⟩, true⟩) ∧
    (0 ≤ uthread_priority timeval_cmp ⟨none, ⟨1, 5⟩, true⟩ ⟨none, ⟨1, 6⟩, true⟩ ∨
      0 ≤ uthread_priority timeval_cmp ⟨none, ⟨1, 6⟩, true⟩ ⟨none, ⟨1, 5⟩, true⟩) ∧
    (0 ≤ uthread_priority timeval_cmp ⟨none, ⟨1, 5⟩, true⟩ ⟨none, ⟨1, 6⟩, true⟩ →
      0 ≤ uthread_priority timeval_cmp ⟨none, ⟨1, 6⟩, true⟩ ⟨none, ⟨2, 0⟩, false⟩ →
      0 ≤ uthread_priority timeval_cmp ⟨none, ⟨1, 5⟩, true⟩ ⟨none, ⟨2, 0⟩, false⟩) :=
  ⟨timeval_cmp_three_way, uthread_priority_order timeval_cmp timeval_cmp_three_way
    ⟨none, ⟨1, 5⟩, true⟩ ⟨none, ⟨1, 6⟩, true⟩ ⟨none, ⟨2, 0⟩, false⟩⟩

/-! ## The scanning loop -/

theorem scan_inactive_some (f : Nat → Option Bool) (left idx u : Nat)
    (h : scan_inactive f left idx = .ok (some u)) :
    idx ≤ u ∧ u < idx + left ∧ f u = some false ∧
      ∀ j, idx ≤ j → j < u → f j = some true := by
  induction left generalizing idx with
  | zero => simp [scan_inactive] at h
  | succ n ih =>
    unfold scan_inactive at h
    cases hf : f idx with
    | none => simp [hf] at h
    | some a =>
      cases a with
      | false =>
        simp [hf] at h
        subst h
        exact ⟨le_refl _, by omega, hf, fun j h1 h2 => by omega⟩
      | true =>
        simp [hf] at h
        obtain ⟨h1, h2, h3, h4⟩ := ih (idx + 1) h
        refine ⟨by omega, by omega, h3, ?_⟩
        intro j hj1 hj2
        by_cases hj : j = idx
        · subst hj; exact hf
        · exact h4 j (by omega) hj2

theorem scan_inactive_first (f : Nat → Option Bool) (left idx u : Nat)
    (h1 : idx ≤ u) (h2 : u < idx + left) (h3 : f u = some false)
    (h4 : ∀ j, idx ≤ j → j < u → f j = some true) :
    scan_inactive f left idx = .ok (some u) := by
  induction left generalizing idx with
  | zero => omega
  | succ n ih =>
    unfold scan_inactive
    by_cases hu : u = idx
    · subst hu
      simp [h3]
    · have hidx : f idx = some true := h4 idx (le_refl _) (by omega)
      simp [hidx]
      exact ih (idx + 1) (by omega) (by omega) (fun j hj1 hj2 => h4 j (by omega) hj2)

theorem scan_inactive_none (f : Nat → Option Bool) (left idx : Nat)
    (h : ∀ j, idx ≤ j → j < idx + left → f j = some true) :
    scan_inactive f left idx = .ok none := by
  induction left generalizing idx with
  | zero => rfl
  | succ n ih =>
    unfold scan_inactive
    have hidx : f idx = some true := h idx (le_refl _) (by omega)
    simp [hidx]
    exact ih (idx + 1) (fun j hj1 hj2 => h j (by omega) (by omega))

theorem scan_inactive_unreadable (f : Nat → Option Bool) (left : Nat) (idx : Nat)
    (h : f idx = none) : scan_inactive f (left + 1) idx = .error .out_of_bounds := by
  unfold scan_inactive
  simp [h]

/-! ## One call of `uthread_create` -/

theorem find_inactive_uthread_slot (s : State) (u : Nat)
    (h : find_inactive_uthread s = .ok (some u)) :
    u < s._uthreads.length ∧ (u : Int) < s._max_num_kthreads := by
  obtain ⟨_, h2, h3, _⟩ := scan_inactive_some _ _ _ _ h
  constructor
  · by_contra hc
    rw [List.getElem?_eq_none (by omega)] at h3
    simp at h3
  · omega

theorem find_inactive_kthread_slot (s : State) (k : Nat)
    (h : find_inactive_kthread s = .ok (some k)) :
    ∃ x, s._kthreads[k]? = some x ∧ x.active = false := by
  obtain ⟨_, _, h3, _⟩ := scan_inactive_some _ _ _ _ h
  cases hk : s._kthreads[k]? with
  | none => simp [hk] at h3
  | some x => exact ⟨x, rfl, by simpa [hk] using h3⟩

/-- The spawning path: what `uthread_create` returns when a vehicle is free. -/
theorem uthread_create_spawn_eq (s : State) (c : Call) (u k : Nat)
    (hu : s._num_uthreads + 1 < MAX_NUM_UTHREADS)
    (hk : s._num_kthreads < s._max_num_kthreads)
    (hfu : find_inactive_uthread s = .ok (some u))
    (hq : s._waiting_uthreads = some ⟨[]⟩)
    (hfk : find_inactive_kthread s = .ok (some k)) :
    uthread_create s c = .ok
      ({ s with _num_uthreads := s._num_uthreads + 1,
                _uthreads := activated s u c,
                _num_kthreads := s._num_kthreads + 1,
                clone_log := s.clone_log ++ [(k, u)] }, c.clone_rv) := by
  have hlen := (find_inactive_uthread_slot s u hfu).1
  obtain ⟨x, hx1, hx2⟩ := find_inactive_kthread_slot s k hfk
  have h0 : s._num_uthreads ≠ INT_MAX := by
    simp only [MAX_NUM_UTHREADS, INT_MAX] at *; omega
  unfold find_inactive_uthread at hfu
  unfold find_inactive_kthread at hfk
  simp [uthread_create, h0, hu, le_of_lt hk, ne_of_lt hk, find_inactive_uthread, hfu,
    uthread_init, hlen, uthread_create_spawn, HEAPsize, hq, find_inactive_kthread, hfk,
    kthread_create, hx1, hx2, activated]

/-- The queueing path: what `uthread_create` returns when no vehicle is free. -/
theorem uthread_create_enqueue_eq (s : State) (c : Call) (u : Nat) (q : HeapObj)
    (hu : s._num_uthreads + 1 < MAX_NUM_UTHREADS)
    (hk : s._num_kthreads = s._max_num_kthreads)
    (hfu : find_inactive_uthread s = .ok (some u))
    (hq : s._waiting_uthreads = some q) :
    uthread_create s c = .ok
      ({ s with _num_uthreads := s._num_uthreads + 1,
                _uthreads := activated s u c,
                _waiting_uthreads := some ⟨u :: q.items⟩ }, c.rv_indeterminate) := by
  have hlen := (find_inactive_uthread_slot s u hfu).1
  have h0 : s._num_uthreads ≠ INT_MAX := by
    simp only [MAX_NUM_UTHREADS, INT_MAX] at *; omega
  unfold find_inactive_uthread at hfu
  simp [uthread_create, h0, hu, hk, find_inactive_uthread, hfu, uthread_init, hlen,
    uthread_create_enqueue, HEAPinsert, hq, activated]

/-- No free slot among the scanned ones: `uthread_init` is handed `NULL`. -/
theorem uthread_create_null (s : State) (c : Call)
    (hu : s._num_uthreads + 1 < MAX_NUM_UTHREADS)
    (hk : s._num_kthreads ≤ s._max_num_kthreads)
    (hfu : find_inactive_uthread s = .ok none) :
    uthread_create s c = .error .null_deref := by
  have h0 : s._num_uthreads ≠ INT_MAX := by
    simp only [MAX_NUM_UTHREADS, INT_MAX] at *; omega
  unfold find_inactive_uthread at hfu
  simp [uthread_create, h0, hu, hk, find_inactive_uthread, hfu, uthread_init]

/-- The capacity assertion of line 132. -/
theorem uthread_create_capacity (s : State) (c : Call)
    (hu : MAX_NUM_UTHREADS ≤ s._num_uthreads + 1) (h0 : s._num_uthreads ≠ INT_MAX) :
    uthread_create s c = .error (.assertion 132) := by
  simp [uthread_create, h0, not_lt.mpr hu]

/-- Every call of `uthread_create` that returns went down one of the two paths. -/
theorem uthread_create_ok (s s1 : State) (c : Call) (rv : Int)
    (h : uthread_create s c = .ok (s1, rv)) :
    s._num_uthreads + 1 < MAX_NUM_UTHREADS ∧
    ∃ u, find_inactive_uthread s = .ok (some u) ∧
      ((s._num_kthreads = s._max_num_kthreads ∧ ∃ q, s._waiting_uthreads = some q ∧
          rv = c.rv_indeterminate ∧
          s1 = { s with _num_uthreads := s._num_uthreads + 1,
                        _uthreads := activated s u c,
                        _waiting_uthreads := some ⟨u :: q.items⟩ }) ∨
       (s._num_kthreads < s._max_num_kthreads ∧ s._waiting_uthreads = some ⟨[]⟩ ∧
          ∃ k, find_inactive_kthread s = .ok (some k) ∧ rv = c.clone_rv ∧
          s1 = { s with _num_uthreads := s._num_uthreads + 1,
                        _uthreads := activated s u c,
                        _num_kthreads := s._num_kthreads + 1,
                        clone_log := s.clone_log ++ [(k, u)] })) := by
  by_cases h0 : s._num_uthreads = INT_MAX
  · simp [uthread_create, h0] at h
  by_cases hu : s._num_uthreads + 1 < MAX_NUM_UTHREADS
  swap
  · rw [uthread_create_capacity s c (not_lt.mp hu) h0] at h
    cases h
  by_cases hk : s._num_kthreads ≤ s._max_num_kthreads
  swap
  · simp [uthread_create, h0, hu, hk] at h
  refine ⟨hu, ?_⟩
  cases hfu : find_inactive_uthread s with
  | error f =>
    unfold find_inactive_uthread at hfu
    simp [uthread_create, h0, hu, hk, find_inactive_uthread, hfu] at h
  | ok o =>
    cases o with
    | none =>
      rw [uthread_create_null s c hu hk hfu] at h
      cases h
    | some u =>
      refine ⟨u, rfl, ?_⟩
      have hlen := (find_inactive_uthread_slot s u hfu).1
      rcases Option.eq_none_or_eq_some s._waiting_uthreads with hq | ⟨q, hq⟩
      ·
        unfold find_inactive_uthread at hfu
        by_cases hk2 : s._num_kthreads = s._max_num_kthreads
        · simp [uthread_create, h0, hu, hk, find_inactive_uthread, hfu, uthread_init, hlen,
            hk2, uthread_create_enqueue, HEAPinsert, hq] at h
        · simp [uthread_create, h0, hu, hk, find_inactive_uthread, hfu, uthread_init, hlen,
            hk2, uthread_create_spawn, HEAPsize, hq] at h
      ·
        by_cases hk2 : s._num_kthreads = s._max_num_kthreads
        · left
          rw [uthread_create_enqueue_eq s c u q hu hk2 hfu hq] at h
          injection h with h
          injection h with h1 h2
          exact ⟨hk2, q, hq, h2.symm, h1.symm⟩
        · right
          have hk3 : s._num_kthreads < s._max_num_kthreads := lt_of_le_of_ne hk hk2
          have hq0 : q.items = [] := by
            by_contra hne
            unfold find_inactive_uthread at hfu
            simp [uthread_create, h0, hu, hk, find_inactive_uthread, hfu, uthread_init, hlen,
              hk2, uthread_create_spawn, HEAPsize, hq, hne] at h
          have hq1 : s._waiting_uthreads = some ⟨[]⟩ := by
            rw [hq]; cases q; simp at hq0; simp [hq0]
          refine ⟨hk3, hq1, ?_⟩
          cases hfk : find_inactive_kthread s with
          | error f =>
            unfold find_inactive_uthread at hfu
            unfold find_inactive_kthread at hfk
            simp [uthread_create, h0, hu, hk, find_inactive_uthread, hfu, uthread_init, hlen,
              hk2, uthread_create_spawn, HEAPsize, hq1, find_inactive_kthread, hfk] at h
          | ok o =>
            cases o with
            | none =>
              unfold find_inactive_uthread at hfu
              unfold find_inactive_kthread at hfk
              simp [uthread_create, h0, hu, hk, find_inactive_uthread, hfu, uthread_init, hlen,
                hk2, uthread_create_spawn, HEAPsize, hq1, find_inactive_kthread, hfk] at h
            | some k =>
              rw [uthread_create_spawn_eq s c u k hu hk3 hfu hq1 hfk] at h
              injection h with h
              injection h with h1 h2
              exact ⟨k, rfl, h2.symm, h1.symm⟩

/-! ## `uthread_create` for every outcome of the loads outside the vehicle table -/

theorem kthread_active_read_none (ks : List kthread_t) (i : Nat) :
    kthread_active_read (fun _ => none) ks i = (ks[i]?).map kthread_t.active := by
  unfold kthread_active_read
  cases ks[i]? <;> rfl

theorem find_inactive_kthread_reading_none (s : State) :
    find_inactive_kthread_reading (fun _ => none) s = find_inactive_kthread s := by
  unfold find_inactive_kthread_reading find_inactive_kthread
  congr 1
  funext i
  exact kthread_active_read_none s._kthreads i

theorem kthread_create_reading_none (s : State) (kt ut : Nat) (clone_rv : Int) :
    kthread_create_reading (fun _ => none) s kt ut clone_rv = kthread_create s kt ut clone_rv := by
  unfold kthread_create_reading kthread_create kthread_active_read
  cases s._kthreads[kt]? <;> rfl

/-- When every load outside the table stops the process, the two embeddings of
`uthread_create` are the same function. -/
theorem uthread_create_reading_none (s : State) (c : Call) :
    uthread_create_reading (fun _ => none) s c = uthread_create s c := by
  have hspawn : ∀ (t : State) (u : Nat),
      uthread_create_spawn_reading (fun _ => none) t u c = uthread_create_spawn t u c := by
    intro t u
    unfold uthread_create_spawn_reading uthread_create_spawn
    rw [find_inactive_kthread_reading_none]
    simp only [kthread_create_reading_none]
  unfold uthread_create_reading uthread_create
  simp only [hspawn]

/-- A run of `run_creates` is the run of `run_creates_reading` in which every load
outside the vehicle table stops the process. -/
theorem run_creates_eq_reading (calls : List Call) (s : State) :
    run_creates s calls = run_creates_reading s (calls.map (fun c => (c, fun _ => none))) := by
  induction calls generalizing s with
  | nil => rfl
  | cons c cs ih =>
    simp only [List.map_cons, run_creates, run_creates_reading, uthread_create_reading_none]
    cases uthread_create s c with
    | error f => rfl
    | ok r => exact ih r.1

theorem find_inactive_kthread_reading_slot (stray : Nat → Option Bool) (s : State) (k : Nat)
    (h : find_inactive_kthread_reading stray s = .ok (some k)) :
    kthread_active_read stray s._kthreads k = some false :=
  (scan_inactive_some _ _ _ _ h).2.2.1

/-- The spawning path for every outcome of the loads. -/
theorem uthread_create_reading_spawn_eq (stray : Nat → Option Bool) (s : State) (c : Call)
    (u k : Nat)
    (hu : s._num_uthreads + 1 < MAX_NUM_UTHREADS)
    (hk : s._num_kthreads < s._max_num_kthreads)
    (hfu : find_inactive_uthread s = .ok (some u))
    (hq : s._waiting_uthreads = some ⟨[]⟩)
    (hfk : find_inactive_kthread_reading stray s = .ok (some k)) :
    uthread_create_reading stray s c = .ok
      ({ s with _num_uthreads := s._num_uthreads + 1,
                _uthreads := activated s u c,
                _num_kthreads := s._num_kthreads + 1,
                clone_log := s.clone_log ++ [(k, u)] }, c.clone_rv) := by
  have hlen := (find_inactive_uthread_slot s u hfu).1
  have hx := find_inactive_kthread_reading_slot stray s k hfk
  have h0 : s._num_uthreads ≠ INT_MAX := by
    simp only [MAX_NUM_UTHREADS, INT_MAX] at *; omega
  unfold find_inactive_uthread at hfu
  unfold find_inactive_kthread_reading at hfk
  simp [uthread_create_reading, h0, hu, le_of_lt hk, ne_of_lt hk, find_inactive_uthread, hfu,
    uthread_init, hlen, uthread_create_spawn_reading, HEAPsize, hq,
    find_inactive_kthread_reading, hfk, kthread_create_reading, hx, activated]

/-- The queueing path does not load from the vehicle table. -/
theorem uthread_create_reading_enqueue_eq (stray : Nat → Option Bool) (s : State) (c : Call)
    (u : Nat) (q : HeapObj)
    (hu : s._num_uthreads + 1 < MAX_NUM_UTHREADS)
    (hk : s._num_kthreads = s._max_num_kthreads)
    (hfu : find_inactive_uthread s = .ok (some u))
    (hq : s._waiting_uthreads = some q) :
    uthread_create_reading stray s c = .ok
      ({ s with _num_uthreads := s._num_uthreads + 1,
                _uthreads := activated s u c,
                _waiting_uthreads := some ⟨u :: q.items⟩ }, c.rv_indeterminate) := by
  have hlen := (find_inactive_uthread_slot s u hfu).1
  have h0 : s._num_uthreads ≠ INT_MAX := by
    simp only [MAX_NUM_UTHREADS, INT_MAX] at *; omega
  unfold find_inactive_uthread at hfu
  simp [uthread_create_reading, h0, hu, hk, find_inactive_uthread, hfu, uthread_init, hlen,
    uthread_create_enqueue, HEAPinsert, hq, activated]

/-- Every call that returns went down one of the two paths, whatever the loads
outside the vehicle table yield. -/
theorem uthread_create_reading_ok (stray : Nat → Option Bool) (s s1 : State) (c : Call)
    (rv : Int) (h : uthread_create_reading stray s c = .ok (s1, rv)) :
    s._num_uthreads + 1 < MAX_NUM_UTHREADS ∧
    ∃ u, find_inactive_uthread s = .ok (some u) ∧
      ((s._num_kthreads = s._max_num_kthreads ∧ ∃ q, s._waiting_uthreads = some q ∧
          rv = c.rv_indeterminate ∧
          s1 = { s with _num_uthreads := s._num_uthreads + 1,
                        _uthreads := activated s u c,
                        _waiting_uthreads := some ⟨u :: q.items⟩ }) ∨
       (s._num_kthreads < s._max_num_kthreads ∧ s._waiting_uthreads = some ⟨[]⟩ ∧
          ∃ k, find_inactive_kthread_reading stray s = .ok (some k) ∧ rv = c.clone_rv ∧
          s1 = { s with _num_uthreads := s._num_uthreads + 1,
                        _uthreads := activated s u c,
                        _num_kthreads := s._num_kthreads + 1,
                        clone_log := s.clone_log ++ [(k, u)] })) := by
  by_cases h0 : s._num_uthreads = INT_MAX
  · simp [uthread_create_reading, h0] at h
  by_cases hu : s._num_uthreads + 1 < MAX_NUM_UTHREADS
  swap
  · simp [uthread_create_reading, h0, hu] at h
  by_cases hk : s._num_kthreads ≤ s._max_num_kthreads
  swap
  · simp [uthread_create_reading, h0, hu, hk] at h
  refine ⟨hu, ?_⟩
  cases hfu : find_inactive_uthread s with
  | error f =>
    unfold find_inactive_uthread at hfu
    simp [uthread_create_reading, h0, hu, hk, find_inactive_uthread, hfu] at h
  | ok o =>
    cases o with
    | none =>
      unfold find_inactive_uthread at hfu
      simp [uthread_create_reading, h0, hu, hk, find_inactive_uthread, hfu, uthread_init] at h
    | some u =>
      refine ⟨u, rfl, ?_⟩
      have hlen := (find_inactive_uthread_slot s u hfu).1
      rcases Option.eq_none_or_eq_some s._waiting_uthreads with hq | ⟨q, hq⟩
      · unfold find_inactive_uthread at hfu
        by_cases hk2 : s._num_kthreads = s._max_num_kthreads
        · simp [uthread_create_reading, h0, hu, hk, find_inactive_uthread, hfu, uthread_init,
            hlen, hk2, uthread_create_enqueue, HEAPinsert, hq] at h
        · simp [uthread_create_reading, h0, hu, hk, find_inactive_uthread, hfu, uthread_init,
            hlen, hk2, uthread_create_spawn_reading, HEAPsize, hq] at h
      · by_cases hk2 : s._num_kthreads = s._max_num_kthreads
        · left
          rw [uthread_create_reading_enqueue_eq stray s c u q hu hk2 hfu hq] at h
          injection h with h
          injection h with h1 h2
          exact ⟨hk2, q, hq, h2.symm, h1.symm⟩
        · right
          have hk3 : s._num_kthreads < s._max_num_kthreads := lt_of_le_of_ne hk hk2
          have hq0 : q.items = [] := by
            by_contra hne
            unfold find_inactive_uthread at hfu
            simp [uthread_create_reading, h0, hu, hk, find_inactive_uthread, hfu, uthread_init,
              hlen, hk2, uthread_create_spawn_reading, HEAPsize, hq, hne] at h
          have hq1 : s._waiting_uthreads = some ⟨[]⟩ := by
            rw [hq]; cases q; simp at hq0; simp [hq0]
          refine ⟨hk3, hq1, ?_⟩
          cases hfk : find_inactive_kthread_reading stray s with
          | error f =>
            unfold find_inactive_uthread at hfu
            unfold find_inactive_kthread_reading at hfk
            simp [uthread_create_reading, h0, hu, hk, find_inactive_uthread, hfu, uthread_init,
              hlen, hk2, uthread_create_spawn_reading, HEAPsize, hq1,
              find_inactive_kthread_reading, hfk] at h
          | ok o =>
            cases o with
            | none =>
              unfold find_inactive_uthread at hfu
              unfold find_inactive_kthread_reading at hfk
              simp [uthread_create_reading, h0, hu, hk, find_inactive_uthread, hfu,
                uthread_init, hlen, hk2, uthread_create_spawn_reading, HEAPsize, hq1,
                find_inactive_kthread_reading, hfk] at h
            | some k =>
              rw [uthread_create_reading_spawn_eq stray s c u k hu hk3 hfu hq1 hfk] at h
              injection h with h
              injection h with h1 h2
              exact ⟨k, rfl, h2.symm, h1.symm⟩

/-! ## Invariants of `uthread_create` -/

theorem HEAPsize_some (q : HeapObj) : HEAPsize (some q) = .ok (q.items.length : Int) := rfl

theorem system_init_admission (pre s0 : State) (n : Int)
    (h : uthread_system_init pre n = .ok s0) : admission s0 := by
  obtain ⟨h1, _, _, hs0⟩ := system_init_ok_inv pre s0 n h
  subst hs0
  refine ⟨by show (0 : Int) ≤ n; omega, 0, rfl, fun hx => absurd hx (lt_irrefl _)⟩

theorem system_init_accounting (pre s0 : State) (n : Int)
    (h : uthread_system_init pre n = .ok s0) : accounting s0 := by
  obtain ⟨_, _, _, hs0⟩ := system_init_ok_inv pre s0 n h
  subst hs0
  exact ⟨0, rfl, rfl⟩

/-- A call that returns leaves a state that satisfies admission. -/
theorem uthread_create_reading_admission (stray : Nat → Option Bool) (s s1 : State) (c : Call)
    (rv : Int) (h : uthread_create_reading stray s c = .ok (s1, rv)) : admission s1 := by
  obtain ⟨_, u, _, hcase⟩ := uthread_create_reading_ok stray s s1 c rv h
  rcases hcase with ⟨hk, q, _, _, hs1⟩ | ⟨hk, hq, k, _, _, hs1⟩
  · subst hs1
    exact ⟨le_of_eq hk, _, HEAPsize_some _, fun _ => hk⟩
  · subst hs1
    refine ⟨by show s._num_kthreads + 1 ≤ s._max_num_kthreads; omega, ?_⟩
    refine ⟨0, ?_, fun hx => absurd hx (lt_irrefl _)⟩
    show HEAPsize s._waiting_uthreads = .ok 0
    rw [hq]; rfl

/-- A call that returns keeps the accounting equation. -/
theorem uthread_create_reading_accounting (stray : Nat → Option Bool) (s s1 : State)
    (c : Call) (rv : Int) (h : uthread_create_reading stray s c = .ok (s1, rv))
    (hacc : accounting s) : accounting s1 := by
  obtain ⟨sz, hsz, heq⟩ := hacc
  obtain ⟨_, u, _, hcase⟩ := uthread_create_reading_ok stray s s1 c rv h
  rcases hcase with ⟨hk, q, hq, _, hs1⟩ | ⟨hk, hq, k, _, _, hs1⟩
  · subst hs1
    rw [hq, HEAPsize_some] at hsz
    injection hsz with hsz
    refine ⟨(q.items.length : Int) + 1, ?_, ?_⟩
    · show HEAPsize (some ⟨u :: q.items⟩) = _
      rw [HEAPsize_some]; simp
    · show s._num_kthreads + ((q.items.length : Int) + 1) = s._num_uthreads + 1
      omega
  · subst hs1
    refine ⟨sz, hsz, ?_⟩
    show s._num_kthreads + 1 + sz = s._num_uthreads + 1
    omega

theorem run_creates_reading_admission (calls : List (Call × (Nat → Option Bool)))
    (s0 s : State) (h0 : admission s0) (h : run_creates_reading s0 calls = .ok s) :
    admission s := by
  induction calls generalizing s0 with
  | nil =>
    simp [run_creates_reading] at h
    subst h; exact h0
  | cons c cs ih =>
    obtain ⟨c, stray⟩ := c
    unfold run_creates_reading at h
    cases hc : uthread_create_reading stray s0 c with
    | error f => simp [hc] at h
    | ok r =>
      obtain ⟨s1, rv⟩ := r
      simp [hc] at h
      exact ih s1 (uthread_create_reading_admission stray s0 s1 c rv hc) h

theorem run_creates_reading_accounting (calls : List (Call × (Nat → Option Bool)))
    (s0 s : State) (h0 : accounting s0) (h : run_creates_reading s0 calls = .ok s) :
    accounting s := by
  induction calls generalizing s0 with
  | nil =>
    simp [run_creates_reading] at h
    subst h; exact h0
  | cons c cs ih =>
    obtain ⟨c, stray⟩ := c
    unfold run_creates_reading at h
    cases hc : uthread_create_reading stray s0 c with
    | error f => simp [hc] at h
    | ok r =>
      obtain ⟨s1, rv⟩ := r
      simp [hc] at h
      exact ih s1 (uthread_create_reading_accounting stray s0 s1 c rv hc h0) h

/-- C1: from the state produced by `uthread_system_init(n)`, and from any state in
which the invariant holds, in every state reached by a sequence of
`uthread_create` calls, whatever the loads outside the vehicle table yield,
`_num_kthreads <= _max_num_kthreads`, and `HEAPsize(_waiting_uthreads) > 0`
implies `_num_kthreads == _max_num_kthreads`. -/
theorem admission_invariant (s0 s : State) (calls : List (Call × (Nat → Option Bool)))
    (hstart : (∃ pre n, uthread_system_init pre n = .ok s0) ∨ admission s0)
    (hrun : run_creates_reading s0 calls = .ok s) :
    s._num_kthreads ≤ s._max_num_kthreads ∧
      ∃ sz, HEAPsize s._waiting_uthreads = .ok sz ∧
        (0 < sz → s._num_kthreads = s._max_num_kthreads) := by
  apply run_creates_reading_admission calls s0 s _ hrun
  rcases hstart with ⟨pre, n, hinit⟩ | h0
  · exact system_init_admission pre s0 n hinit
  · exact h0

/-- C10: from the state produced by `uthread_system_init(n)`, and from any state in
which the equation holds, in every state reached by a sequence of `uthread_create`
calls that returned, whatever the loads outside the vehicle table yield,
`_num_kthreads + HEAPsize(_waiting_uthreads) == _num_uthreads`. -/
theorem accounting_invariant (s0 s : State) (calls : List (Call × (Nat → Option Bool)))
    (hstart : (∃ pre n, uthread_system_init pre n = .ok s0) ∨ accounting s0)
    (hrun : run_creates_reading s0 calls = .ok s) :
    ∃ sz, HEAPsize s._waiting_uthreads = .ok sz ∧
      s._num_kthreads + sz = s._num_uthreads := by
  apply run_creates_reading_accounting calls s0 s _ hrun
  rcases hstart with ⟨pre, n, hinit⟩ | h0
  · exact system_init_accounting pre s0 n hinit
  · exact h0

/-- Two runs for C1.  From program start: `uthread_system_init(2)`, then two calls
whose loads outside the table find 0; both return and both vehicles are counted.
From `waiting_one`: the call queues slot 0 behind slot 2. -/
theorem admission_invariant_witness :
    (∃ s0 s, uthread_system_init boot 2 = .ok s0 ∧
      run_creates_reading s0
        [(⟨7, 0, 101⟩, fun _ => some false), (⟨8, 0, 102⟩, fun _ => some false)] = .ok s ∧
      s._num_kthreads = 2 ∧
      (s._num_kthreads ≤ s._max_num_kthreads ∧
        ∃ sz, HEAPsize s._waiting_uthreads = .ok sz ∧
          (0 < sz → s._num_kthreads = s._max_num_kthreads))) ∧
    (admission waiting_one ∧
      ∃ s, run_creates_reading waiting_one [(⟨9, 0, 103⟩, fun _ => none)] = .ok s ∧
        HEAPsize s._waiting_uthreads = .ok 2 ∧
        (s._num_kthreads ≤ s._max_num_kthreads ∧
          ∃ sz, HEAPsize s._waiting_uthreads = .ok sz ∧
            (0 < sz → s._num_kthreads = s._max_num_kthreads))) :=
  ⟨⟨_, _, rfl, rfl, rfl,
      admission_invariant _ _
        [(⟨7, 0, 101⟩, fun _ => some false), (⟨8, 0, 102⟩, fun _ => some false)]
        (Or.inl ⟨boot, 2, rfl⟩) rfl⟩,
    ⟨⟨by decide, 1, rfl, fun _ => rfl⟩, _, rfl, rfl,
      admission_invariant waiting_one _ [(⟨9, 0, 103⟩, fun _ => none)]
        (Or.inr ⟨by decide, 1, rfl, fun _ => rfl⟩) rfl⟩⟩

/-- Two runs for C10.  From program start: `uthread_system_init(2)`, then two calls
whose loads outside the table find 0 and whose `clone` succeeds: 2 + 0 == 2.
From `waiting_one`: the call queues slot 0 behind slot 2: 1 + 2 == 3. -/
theorem accounting_invariant_witness :
    (∃ s0 s, uthread_system_init boot 2 = .ok s0 ∧
      run_creates_reading s0
        [(⟨7, 0, 101⟩, fun _ => some false), (⟨8, 0, 102⟩, fun _ => some false)] = .ok s ∧
      s._num_uthreads = 2 ∧
      ∃ sz, HEAPsize s._waiting_uthreads = .ok sz ∧
        s._num_kthreads + sz = s._num_uthreads) ∧
    (accounting waiting_one ∧
      ∃ s, run_creates_reading waiting_one [(⟨9, 0, 103⟩, fun _ => none)] = .ok s ∧
        HEAPsize s._waiting_uthreads = .ok 2 ∧ s._num_uthreads = 3 ∧
        ∃ sz, HEAPsize s._waiting_uthreads = .ok sz ∧
          s._num_kthreads + sz = s._num_uthreads) :=
  ⟨⟨_, _, rfl, rfl, rfl,
      accounting_invariant _ _
        [(⟨7, 0, 101⟩, fun _ => some false), (⟨8, 0, 102⟩, fun _ => some false)]
        (Or.inl ⟨boot, 2, rfl⟩) rfl⟩,
    ⟨⟨1, rfl, rfl⟩, _, rfl, rfl, rfl,
      accounting_invariant waiting_one _ [(⟨9, 0, 103⟩, fun _ => none)]
        (Or.inr ⟨1, rfl, rfl⟩) rfl⟩⟩

/-! ## The user-thread scan is bounded by the number of vehicles -/

theorem system_init_spawned_only (pre s0 : State) (n : Int)
    (h : uthread_system_init pre n = .ok s0) : spawned_only s0 n 0 := by
  obtain ⟨h1, h2, _, hs0⟩ := system_init_ok_inv pre s0 n h
  subst hs0
  refine ⟨rfl, rfl, rfl, by simp only [Nat.cast_zero]; omega, h2, rfl, ?_, ?_⟩
  · intro j hj; omega
  · intro j _ hj
    show ((List.replicate MAX_NUM_UTHREADS.toNat fresh_uthread)[j]?).map uthread_t.active
      = some false
    have hj2 : j < MAX_NUM_UTHREADS.toNat := hj
    rw [List.getElem?_replicate, if_pos hj2]
    rfl

/-- In such a state with all vehicles in use, the scan finds no slot. -/
theorem spawned_only_saturated (s : State) (n : Int) (k : Nat)
    (h : spawned_only s n k) (hk : (k : Int) = n) : find_inactive_uthread s = .ok none := by
  obtain ⟨hmax, _, _, _, _, _, hact, _⟩ := h
  unfold find_inactive_uthread
  apply scan_inactive_none
  intro j _ hj
  apply hact
  rw [hmax, ← hk] at hj
  simpa using hj

/-- In such a state with a vehicle to spare, the scan finds slot `k`. -/
theorem spawned_only_next (s : State) (n : Int) (k : Nat)
    (h : spawned_only s n k) (hk : (k : Int) < n) :
    find_inactive_uthread s = .ok (some k) := by
  obtain ⟨hmax, _, _, _, hn, _, hact, hina⟩ := h
  unfold find_inactive_uthread
  have hk1000 : k < 1000 := by simp only [MAX_NUM_UTHREADS] at hn; omega
  apply scan_inactive_first
  · exact Nat.zero_le _
  · rw [hmax]; omega
  · exact hina k (le_refl _) hk1000
  · intro j _ hj
    exact hact j hj

theorem uthread_create_spawned_only (s s1 : State) (c : Call) (rv : Int) (n : Int) (k : Nat)
    (hs : spawned_only s n k) (h : uthread_create s c = .ok (s1, rv)) :
    spawned_only s1 n (k + 1) := by
  obtain ⟨_, u, hfu, hcase⟩ := uthread_create_ok s s1 c rv h
  have hs' := hs
  obtain ⟨hmax, hnk, hnu, hkn, hn, hq, hact, hina⟩ := hs
  by_cases hsat : (k : Int) = n
  · rw [spawned_only_saturated s n k hs' hsat] at hfu
    cases hfu
  · have hlt : (k : Int) < n := lt_of_le_of_ne hkn hsat
    rw [spawned_only_next s n k hs' hlt] at hfu
    injection hfu with hfu
    injection hfu with hfu
    subst hfu
    rcases hcase with ⟨hk, _⟩ | ⟨_, _, kt, _, _, hs1⟩
    · omega
    · subst hs1
      have hklen : k < s._uthreads.length := by
        by_contra hc
        have := hina k (le_refl _) (by simp only [MAX_NUM_UTHREADS] at hn; omega)
        rw [List.getElem?_eq_none (by omega)] at this
        simp at this
      refine ⟨hmax, ?_, ?_, ?_, hn, hq, ?_, ?_⟩
      · show s._num_kthreads + 1 = ((k + 1 : Nat) : Int)
        rw [hnk]; simp
      · show s._num_uthreads + 1 = ((k + 1 : Nat) : Int)
        rw [hnu]; simp
      · simp only [Nat.cast_add, Nat.cast_one]; omega
      · intro j hj
        show ((activated s k c)[j]?).map uthread_t.active = some true
        unfold activated
        by_cases hjk : j = k
        · subst hjk
          rw [List.getElem?_set_self hklen]
          rfl
        · rw [List.getElem?_set_ne (Ne.symm hjk)]
          exact hact j (by omega)
      · intro j hj1 hj2
        show ((activated s k c)[j]?).map uthread_t.active = some false
        unfold activated
        rw [List.getElem?_set_ne (by omega)]
        exact hina j (by omega) hj2

theorem run_creates_spawned_only (calls : List Call) (s0 s : State) (n : Int) (k : Nat)
    (h0 : spawned_only s0 n k) (h : run_creates s0 calls = .ok s) :
    spawned_only s n (k + calls.length) := by
  induction calls generalizing s0 k with
  | nil =>
    simp [run_creates] at h
    subst h; exact h0
  | cons c cs ih =>
    unfold run_creates at h
    cases hc : uthread_create s0 c with
    | error f => simp [hc] at h
    | ok r =>
      obtain ⟨s1, rv⟩ := r
      simp [hc] at h
      have := ih s1 (k + 1) (uthread_create_spawned_only s0 s1 c rv n k h0 hc) h
      rw [List.length_cons]
      rw [show k + (cs.length + 1) = k + 1 + cs.length by omega]
      exact this

/-- C2: after `uthread_system_init(n)` and exactly `n` calls of `uthread_create`
that returned, the next call does not return: `find_inactive_uthread` scans only
the slots below `_max_num_kthreads`, all active by then, and `uthread_init`
receives `NULL` (for `n = 999` the assertion of line 132 fails first).  Nothing
is inserted into the waiting queue. -/
theorem create_after_saturation (pre s0 s : State) (n : Int) (calls : List Call) (c : Call)
    (hinit : uthread_system_init pre n = .ok s0)
    (hlen : (calls.length : Int) = n)
    (hrun : run_creates s0 calls = .ok s) :
    uthread_create s c =
      .error (if n + 1 < MAX_NUM_UTHREADS then Fault.null_deref else Fault.assertion 132) := by
  have hJ := run_creates_spawned_only calls s0 s n 0
    (system_init_spawned_only pre s0 n hinit) hrun
  rw [Nat.zero_add] at hJ
  have hnone := spawned_only_saturated s n _ hJ hlen
  obtain ⟨hmax, hnk, hnu, _, hn, _, _, _⟩ := hJ
  by_cases hcap : n + 1 < MAX_NUM_UTHREADS
  · rw [if_pos hcap]
    exact uthread_create_null s c (by rw [hnu, hlen]; exact hcap)
      (by rw [hnk, hmax, hlen]) hnone
  · rw [if_neg hcap]
    apply uthread_create_capacity
    · rw [hnu, hlen]; exact not_lt.mp hcap
    · rw [hnu, hlen]; simp only [MAX_NUM_UTHREADS, INT_MAX] at *; omega

theorem create_after_saturation_witness :
    ∃ s0 s, uthread_system_init (boot_with 2) 2 = .ok s0 ∧
      (([⟨7, 0, 101⟩, ⟨8, 0, 102⟩] : List Call).length : Int) = 2 ∧
      run_creates s0 [⟨7, 0, 101⟩, ⟨8, 0, 102⟩] = .ok s ∧
      uthread_create s ⟨9, 0, 103⟩ = .error Fault.null_deref :=
  ⟨_, _, rfl, rfl, rfl,
    create_after_saturation (boot_with 2) _ _ 2 [⟨7, 0, 101⟩, ⟨8, 0, 102⟩] ⟨9, 0, 103⟩
      rfl rfl rfl⟩

/-- In every run from `uthread_system_init(n)` the waiting queue stays empty and
`_num_kthreads` counts the calls that returned. -/
theorem run_never_enqueues (pre s0 s : State) (n : Int) (calls : List Call)
    (hinit : uthread_system_init pre n = .ok s0)
    (hrun : run_creates s0 calls = .ok s) :
    s._waiting_uthreads = some ⟨[]⟩ ∧ s._num_kthreads = calls.length ∧
      (calls.length : Int) ≤ n := by
  have hJ := run_creates_spawned_only calls s0 s n 0
    (system_init_spawned_only pre s0 n hinit) hrun
  rw [Nat.zero_add] at hJ
  exact ⟨hJ.2.2.2.2.2.1, hJ.2.1, hJ.2.2.2.1⟩

/-! ## The vehicle table -/

/-- A fault in `find_inactive_kthread` on the spawning path stops the call. -/
theorem uthread_create_scan_fault (s : State) (c : Call) (u : Nat) (f : Fault)
    (hu : s._num_uthreads + 1 < MAX_NUM_UTHREADS)
    (hk : s._num_kthreads < s._max_num_kthreads)
    (hfu : find_inactive_uthread s = .ok (some u))
    (hq : s._waiting_uthreads = some ⟨[]⟩)
    (hfk : find_inactive_kthread s = .error f) :
    uthread_create s c = .error f := by
  have hlen := (find_inactive_uthread_slot s u hfu).1
  have h0 : s._num_uthreads ≠ INT_MAX := by
    simp only [MAX_NUM_UTHREADS, INT_MAX] at *; omega
  unfold find_inactive_uthread at hfu
  unfold find_inactive_kthread at hfk
  simp [uthread_create, h0, hu, le_of_lt hk, ne_of_lt hk, find_inactive_uthread, hfu,
    uthread_init, hlen, uthread_create_spawn, HEAPsize, hq, find_inactive_kthread, hfk]

/-- After the first `uthread_system_init(n)` every `uthread_create` stops in
`find_inactive_kthread`, which reads `_kthreads[0]` in a table without slots. -/
theorem create_after_first_init (n : Int) (s : State)
    (hs : uthread_system_init boot n = .ok s) (c : Call) :
    uthread_create s c = .error .out_of_bounds := by
  obtain ⟨h1, h2, _, hs0⟩ := system_init_ok_inv boot s n hs
  obtain ⟨m, hm⟩ : ∃ m, n.toNat = m + 1 := ⟨n.toNat - 1, by omega⟩
  have hJ := system_init_spawned_only boot s n hs
  have hfu := spawned_only_next s n 0 hJ (by simp only [Nat.cast_zero]; omega)
  have hmax : s._max_num_kthreads = n := by rw [hs0]
  have hfk : find_inactive_kthread s = .error .out_of_bounds := by
    unfold find_inactive_kthread
    have hks : s._kthreads = [] := by rw [hs0]; rfl
    rw [hmax, hm, hks]
    exact scan_inactive_unreadable _ m 0 rfl
  have hnu : s._num_uthreads = 0 := by rw [hs0]
  have hnk : s._num_kthreads = 0 := by rw [hs0]
  have hq : s._waiting_uthreads = some ⟨[]⟩ := by rw [hs0]
  exact uthread_create_scan_fault s c 0 _ (by rw [hnu]; decide) (by rw [hnk, hmax]; omega)
    hfu hq hfk

/-- C9: two consecutive `uthread_create` calls that both spawn hand the same vehicle
slot to `clone`: `kthread_create` leaves the slot marked inactive, so
`find_inactive_kthread` returns it again.  The two user-thread slots differ. -/
theorem spawns_share_vehicle (s s1 s2 : State) (c1 c2 : Call) (rv1 rv2 : Int)
    (h1 : uthread_create s c1 = .ok (s1, rv1))
    (hk1 : s._num_kthreads < s._max_num_kthreads)
    (h2 : uthread_create s1 c2 = .ok (s2, rv2))
    (hk2 : s1._num_kthreads < s1._max_num_kthreads) :
    ∃ k u1 u2, find_inactive_kthread s = .ok (some k) ∧
      find_inactive_kthread s1 = .ok (some k) ∧
      (s1._kthreads[k]?).map kthread_t.active = some false ∧
      s1.clone_log = s.clone_log ++ [(k, u1)] ∧
      s2.clone_log = s.clone_log ++ [(k, u1), (k, u2)] ∧ u1 ≠ u2 := by
  obtain ⟨_, u1, hfu1, hcase1⟩ := uthread_create_ok s s1 c1 rv1 h1
  rcases hcase1 with ⟨hk, _⟩ | ⟨_, _, k, hfk, _, hs1⟩
  · omega
  obtain ⟨_, u2, hfu2, hcase2⟩ := uthread_create_ok s1 s2 c2 rv2 h2
  rcases hcase2 with ⟨hk, _⟩ | ⟨_, _, k2, hfk2, _, hs2⟩
  · omega
  have hsame : find_inactive_kthread s1 = find_inactive_kthread s := by rw [hs1]; rfl
  have hk2k : k2 = k := by
    rw [hsame, hfk] at hfk2
    injection hfk2 with hfk2
    injection hfk2 with hfk2
    exact hfk2.symm
  subst hk2k
  obtain ⟨x, hx1, hx2⟩ := find_inactive_kthread_slot s k2 hfk
  have hlen1 := (find_inactive_uthread_slot s u1 hfu1).1
  refine ⟨k2, u1, u2, hfk, hsame.trans hfk, ?_, ?_, ?_, ?_⟩
  · rw [hs1]
    show (s._kthreads[k2]?).map kthread_t.active = some false
    rw [hx1]; simp [hx2]
  · rw [hs1]
  · rw [hs2, hs1]
    show s.clone_log ++ [(k2, u1)] ++ [(k2, u2)] = s.clone_log ++ [(k2, u1), (k2, u2)]
    simp
  · intro hu
    subst hu
    obtain ⟨_, _, h3, _⟩ := scan_inactive_some _ _ _ _ hfu2
    rw [hs1] at h3
    have h4 : ((activated s u1 c1)[u1]?).map uthread_t.active = some false := h3
    unfold activated at h4
    rw [List.getElem?_set_self hlen1] at h4
    simp at h4

theorem spawns_share_vehicle_witness :
    ∃ s s1 s2, uthread_system_init (boot_with 2) 2 = .ok s ∧
      uthread_create s ⟨7, 0, 101⟩ = .ok (s1, 101) ∧
      s._num_kthreads < s._max_num_kthreads ∧
      uthread_create s1 ⟨8, 0, 102⟩ = .ok (s2, 102) ∧
      s1._num_kthreads < s1._max_num_kthreads ∧
      ∃ k u1 u2, find_inactive_kthread s = .ok (some k) ∧
        find_inactive_kthread s1 = .ok (some k) ∧
        (s1._kthreads[k]?).map kthread_t.active = some false ∧
        s1.clone_log = s.clone_log ++ [(k, u1)] ∧
        s2.clone_log = s.clone_log ++ [(k, u1), (k, u2)] ∧ u1 ≠ u2 :=
  ⟨_, _, _, rfl, rfl, by decide, rfl, by decide,
    spawns_share_vehicle _ _ _ ⟨7, 0, 101⟩ ⟨8, 0, 102⟩ 101 102 rfl (by decide) rfl (by decide)⟩

/-! ## Capacity -/

/-- C3: with `MAX_NUM_UTHREADS` user threads already active, `uthread_create` does
not return an error to its caller: it stops at the failed assertion
`_num_uthreads < MAX_NUM_UTHREADS` of line 132. -/
theorem uthread_create_at_capacity (s : State) (c : Call)
    (h : s._num_uthreads = MAX_NUM_UTHREADS) :
    uthread_create s c = .error (.assertion 132) := by
  apply uthread_create_capacity
  · rw [h]; decide
  · rw [h]; decide

theorem uthread_create_at_capacity_witness :
    full_state._num_uthreads = MAX_NUM_UTHREADS ∧
      uthread_create full_state ⟨9, 0, 103⟩ = .error (.assertion 132) :=
  ⟨rfl, uthread_create_at_capacity full_state ⟨9, 0, 103⟩ rfl⟩

/-- C3, as stated, fails: with all 1000 user threads active, no call of
`uthread_create` returns with the state it started from. -/
theorem capacity_rejection_no_return :
    full_state._num_uthreads = MAX_NUM_UTHREADS ∧
      (∀ u ∈ full_state._uthreads, u.active = true) ∧
      ¬ ∃ rv, uthread_create full_state ⟨9, 0, 103⟩ = .ok (full_state, rv) := by
  refine ⟨rfl, ?_, ?_⟩
  · intro u hu
    rw [List.eq_of_mem_replicate hu]
  · rintro ⟨rv, h⟩
    rw [uthread_create_capacity full_state ⟨9, 0, 103⟩ (by decide) (by decide)] at h
    cases h

/-! ## Failure of `clone` -/

/-- C4: when a vehicle is free and `clone` fails (returns -1), `uthread_create`
returns -1 to the caller; the user-thread slot it allocated stays active and
`_num_uthreads` and `_num_kthreads` are both one more than before the call.  The
vehicle table and the waiting queue are as before. -/
theorem spawn_failure_returned (s : State) (c : Call) (u k : Nat)
    (hu : s._num_uthreads + 1 < MAX_NUM_UTHREADS)
    (hk : s._num_kthreads < s._max_num_kthreads)
    (hfu : find_inactive_uthread s = .ok (some u))
    (hq : s._waiting_uthreads = some ⟨[]⟩)
    (hfk : find_inactive_kthread s = .ok (some k))
    (hc : c.clone_rv = -1) :
    ∃ s1, uthread_create s c = .ok (s1, -1) ∧
      (s1._uthreads[u]?).map uthread_t.active = some true ∧
      s1._num_uthreads = s._num_uthreads + 1 ∧
      s1._num_kthreads = s._num_kthreads + 1 ∧
      s1._kthreads = s._kthreads ∧ s1._waiting_uthreads = s._waiting_uthreads := by
  have hlen := (find_inactive_uthread_slot s u hfu).1
  refine ⟨{ s with _num_uthreads := s._num_uthreads + 1,
                   _uthreads := activated s u c,
                   _num_kthreads := s._num_kthreads + 1,
                   clone_log := s.clone_log ++ [(k, u)] }, ?_, ?_, rfl, rfl, rfl, rfl⟩
  · rw [uthread_create_spawn_eq s c u k hu hk hfu hq hfk, hc]
  · show ((activated s u c)[u]?).map uthread_t.active = some true
    unfold activated
    rw [List.getElem?_set_self hlen]
    rfl

theorem spawn_failure_returned_witness :
    idle_one._num_uthreads + 1 < MAX_NUM_UTHREADS ∧
      idle_one._num_kthreads < idle_one._max_num_kthreads ∧
      find_inactive_uthread idle_one = .ok (some 0) ∧
      idle_one._waiting_uthreads = some ⟨[]⟩ ∧
      find_inactive_kthread idle_one = .ok (some 0) ∧
      ∃ s1, uthread_create idle_one ⟨7, 0, -1⟩ = .ok (s1, -1) ∧
        (s1._uthreads[0]?).map uthread_t.active = some true ∧
        s1._num_uthreads = idle_one._num_uthreads + 1 ∧
        s1._num_kthreads = idle_one._num_kthreads + 1 ∧
        s1._kthreads = idle_one._kthreads ∧
        s1._waiting_uthreads = idle_one._waiting_uthreads :=
  ⟨by decide, by decide, rfl, rfl, rfl,
    spawn_failure_returned idle_one ⟨7, 0, -1⟩ 0 0 (by decide) (by decide) rfl rfl rfl rfl⟩

/-- C4, as stated, fails: a vehicle is free, `clone` returns -1, and after the call
the allocated slot 0 is active and both counters have moved. -/
theorem spawn_failure_not_rolled_back :
    idle_one._num_kthreads < idle_one._max_num_kthreads ∧
      ¬ ∃ s1, uthread_create idle_one ⟨7, 0, -1⟩ = .ok (s1, -1) ∧
        (s1._uthreads[0]?).map uthread_t.active = some false ∧
        s1._num_uthreads = idle_one._num_uthreads ∧
        s1._num_kthreads = idle_one._num_kthreads := by
  refine ⟨by decide, ?_⟩
  rintro ⟨s1, h, _, hnu, _⟩
  have hspawn := uthread_create_spawn_eq idle_one ⟨7, 0, -1⟩ 0 0 (by decide) (by decide)
    rfl rfl rfl
  rw [hspawn] at h
  injection h with h
  injection h with h
  rw [← h] at hnu
  revert hnu
  decide

/-! ## The first call of `uthread_system_init` -/

/-- C5: after the first call `uthread_system_init(n)`, `1 ≤ n ≤ MAX_NUM_UTHREADS`,
every one of the 1000 user-thread slots is inactive, the waiting queue is empty,
`_num_uthreads = 0`, `_num_kthreads = 0` and `_max_num_kthreads = n`; but the
vehicle table has no slot at all (not `n`), so no vehicle slot is marked inactive,
and every `uthread_create` that follows reads outside the table. -/
theorem system_init_first_call (n : Int) (h1 : 1 ≤ n) (h2 : n ≤ MAX_NUM_UTHREADS) :
    ∃ s, uthread_system_init boot n = .ok s ∧
      s._kthreads = [] ∧ (s._kthreads.length : Int) ≠ n ∧
      s._uthreads.length = 1000 ∧ (∀ u ∈ s._uthreads, u.active = false) ∧
      s._waiting_uthreads = some ⟨[]⟩ ∧
      s._num_uthreads = 0 ∧ s._num_kthreads = 0 ∧ s._max_num_kthreads = n ∧
      ∀ c, uthread_create s c = .error .out_of_bounds := by
  have hok := system_init_ok boot n h1 h2 rfl
  refine ⟨_, hok, ?_, ?_, ?_, ?_, rfl, rfl, rfl, rfl, ?_⟩
  · rfl
  · show ((0 : Nat) : Int) ≠ n
    omega
  · rw [List.length_replicate]; rfl
  · intro u hu
    rw [List.eq_of_mem_replicate hu]
    rfl
  · exact fun c => create_after_first_init n _ hok c

theorem system_init_first_call_witness :
    (1 : Int) ≤ 3 ∧ (3 : Int) ≤ MAX_NUM_UTHREADS ∧
    ∃ s, uthread_system_init boot 3 = .ok s ∧
      s._kthreads = [] ∧ (s._kthreads.length : Int) ≠ 3 ∧
      s._uthreads.length = 1000 ∧ (∀ u ∈ s._uthreads, u.active = false) ∧
      s._waiting_uthreads = some ⟨[]⟩ ∧
      s._num_uthreads = 0 ∧ s._num_kthreads = 0 ∧ s._max_num_kthreads = 3 ∧
      ∀ c, uthread_create s c = .error .out_of_bounds :=
  ⟨by decide, by decide, system_init_first_call 3 (by decide) (by decide)⟩

end Uthread
